import Mathlib

/-!
Verification development for the Pong simulation core (`src/main.rs`).

The embedding models the game's simulation state over exact rationals:
`f32`/`f64` coordinates become `ℚ`, so every geometric statement is about
the exact arithmetic the source expresses.  Angles of type `Wrap64`
(the `radians` crate) appear in the source only through the two constants
`Wrap64::ZERO` and `Wrap64::HALF_TURN` and are never computed with, so we
represent an angle by a rational number of turns: `ZERO = 0`,
`HALF_TURN = 1/2`.

The source is single-threaded in effect: the GLFW key callback runs
inside `glfw.poll_events()` at the top of each loop iteration, so a loop
iteration is modelled as (1) folding the pending key events through the
key-callback closure, then (2) the `sanitize` pass over both paddles.
`Arc<Mutex<…>>` is therefore modelled as plain state passing.

Index buffers are `u16` in the source; the values involved are 0..11, so
they are modelled as `Nat`.
-/

/-- A vertex as in `struct Vertex`: `position: [f32; 3]`, `color: [f32; 3]`.
Field `p0 p1 p2` are the position components (so `p1` is the vertical
coordinate written `position[1]` in the source) and `c0 c1 c2` the color. -/
structure Vertex where
  p0 : ℚ
  p1 : ℚ
  p2 : ℚ
  c0 : ℚ
  c1 : ℚ
  c2 : ℚ
deriving DecidableEq, Repr

/-- Default vertex used to totalise `Vec` indexing (`vertices[0]`,
`vertices[3]`); every paddle in the program has exactly 4 vertices, so the
default is never read on the states the theorems talk about. -/
def vdefault : Vertex := ⟨0, 0, 0, 0, 0, 0⟩

/-- The ball state, as in `struct Ball`.  Directions are in turns. -/
structure Ball where
  vertices : List Vertex
  velocity_direction : ℚ
  velocity : ℚ
  acceleration : ℚ
  acceleration_direction : ℚ
deriving DecidableEq, Repr

namespace Wrap64

/-- Constant `Wrap64::ZERO`, the serve direction toward player 2 (rightward). -/
def ZERO : ℚ := 0

/-- Constant `Wrap64::HALF_TURN`, the serve direction toward player 1 (leftward). -/
def HALF_TURN : ℚ := 1/2

end Wrap64

/-- The four held-key booleans `is_w_down`, `is_s_down`, `is_up_down`,
`is_down_down` captured by the key callback. -/
structure InputFlags where
  is_w_down : Bool
  is_s_down : Bool
  is_up_down : Bool
  is_down_down : Bool
deriving DecidableEq, Repr

/-- The keys the callback distinguishes; every other key is `other`. -/
inductive Key where
  | w
  | s
  | up
  | down
  | other
deriving DecidableEq, Repr

/-- A GLFW key action: `Press`, `Release`, or `Repeat`. -/
inductive KeyAction where
  | press
  | release
  | repeatK
deriving DecidableEq, Repr

/-- The test `action == Action::Press || action == Action::Repeat` used for
each tracked key. -/
def KeyAction.held : KeyAction → Bool
  | KeyAction.press => true
  | KeyAction.repeatK => true
  | KeyAction.release => false

/-- Whole-game mutable state: the key flags, both players' vertex quads
(`Player { vertices }`) and the ball. -/
structure GameState where
  flags : InputFlags
  player_1 : List Vertex
  player_2 : List Vertex
  ball : Ball
deriving DecidableEq, Repr

/-- Closure `can_move_up`: `player.vertices[0].position[1] + 0.05 < 1.` -/
def can_move_up (p : List Vertex) : Prop :=
  (p.getD 0 vdefault).p1 + 1/20 < 1

instance (p : List Vertex) : Decidable (can_move_up p) :=
  inferInstanceAs (Decidable (_ < _))

/-- Closure `can_move_down`: `player.vertices[3].position[1] - 0.05 > -1.` -/
def can_move_down (p : List Vertex) : Prop :=
  (p.getD 3 vdefault).p1 - 1/20 > -1

instance (p : List Vertex) : Decidable (can_move_down p) :=
  inferInstanceAs (Decidable (_ > _))

/-- Closure `player_up`: every vertex's `position[1] += 0.05`. -/
def player_up (p : List Vertex) : List Vertex :=
  p.map (fun v => { v with p1 := v.p1 + 1/20 })

/-- Closure `player_down`: every vertex's `position[1] -= 0.05`. -/
def player_down (p : List Vertex) : List Vertex :=
  p.map (fun v => { v with p1 := v.p1 - 1/20 })

/-- The `sanitize` closure (`src/main.rs:402`): if the first vertex is above
the top bound, shift every vertex down by the overshoot and return; otherwise
if the fourth vertex is below the bottom bound, shift every vertex up by that
overshoot. -/
def sanitize (p : List Vertex) : List Vertex :=
  let top_delta := (p.getD 0 vdefault).p1 - 1
  if top_delta > 0 then
    p.map (fun v => { v with p1 := v.p1 - top_delta })
  else
    let bottom_delta := -1 - (p.getD 3 vdefault).p1
    if bottom_delta > 0 then
      p.map (fun v => { v with p1 := v.p1 + bottom_delta })
    else
      p

/-- The key callback closure (`src/main.rs:280`): update the held-key flags
from the event, then run the eight conditional movement blocks in source
order.  The sequencing of `let`s mirrors the sequencing of mutations; in
particular the guard of the second statement of the `is_w_down && is_up_down`
block reads `can_move_up(&p1)` after paddle 1 has already moved. -/
def key_callback (key : Key) (action : KeyAction) (s : GameState) : GameState :=
  let f := s.flags
  let f := if key = Key.w then { f with is_w_down := action.held } else f
  let f := if key = Key.s then { f with is_s_down := action.held } else f
  let f := if key = Key.up then { f with is_up_down := action.held } else f
  let f := if key = Key.down then { f with is_down_down := action.held } else f
  let p1 := s.player_1
  let p2 := s.player_2
  -- if is_w_down && is_up_down
  let p1 := if f.is_w_down && f.is_up_down then
      (if can_move_up p1 then player_up p1 else p1) else p1
  let p2 := if f.is_w_down && f.is_up_down then
      (if can_move_up p1 then player_up p2 else p2) else p2
  -- if is_s_down && is_up_down
  let p1 := if f.is_s_down && f.is_up_down then
      (if can_move_down p1 then player_down p1 else p1) else p1
  let p2 := if f.is_s_down && f.is_up_down then
      (if can_move_up p2 then player_up p2 else p2) else p2
  -- if is_w_down && is_down_down
  let p1 := if f.is_w_down && f.is_down_down then
      (if can_move_up p1 then player_up p1 else p1) else p1
  let p2 := if f.is_w_down && f.is_down_down then
      (if can_move_down p2 then player_down p2 else p2) else p2
  -- if is_s_down && is_down_down
  let p1 := if f.is_s_down && f.is_down_down then
      (if can_move_down p1 then player_down p1 else p1) else p1
  let p2 := if f.is_s_down && f.is_down_down then
      (if can_move_down p2 then player_down p2 else p2) else p2
  -- if is_w_down
  let p1 := if f.is_w_down then
      (if can_move_up p1 then player_up p1 else p1) else p1
  -- if is_s_down
  let p1 := if f.is_s_down then
      (if can_move_down p1 then player_down p1 else p1) else p1
  -- if is_up_down
  let p2 := if f.is_up_down then
      (if can_move_up p2 then player_up p2 else p2) else p2
  -- if is_down_down
  let p2 := if f.is_down_down then
      (if can_move_down p2 then player_down p2 else p2) else p2
  { flags := f, player_1 := p1, player_2 := p2, ball := s.ball }

/-- Array `vertices_1`: paddle 1's initial quad (left paddle). -/
def vertices_1 : List Vertex :=
  [ ⟨-4/5, 1/5, 0, 1, 1, 1⟩
  , ⟨-4/5, -1/5, 0, 1, 1, 1⟩
  , ⟨-77/100, 1/5, 0, 1, 1, 1⟩
  , ⟨-77/100, -1/5, 0, 1, 1, 1⟩ ]

/-- Array `indices_1 = [0, 1, 2, 2, 1, 3]`. -/
def indices_1 : List Nat := [0, 1, 2, 2, 1, 3]

/-- Array `vertices_2`: paddle 2's initial quad (right paddle). -/
def vertices_2 : List Vertex :=
  [ ⟨4/5, 1/5, 0, 1, 1, 1⟩
  , ⟨4/5, -1/5, 0, 1, 1, 1⟩
  , ⟨77/100, 1/5, 0, 1, 1, 1⟩
  , ⟨77/100, -1/5, 0, 1, 1, 1⟩ ]

/-- Array `indices_2 = [4, 6, 5, 6, 7, 5]`. -/
def indices_2 : List Nat := [4, 6, 5, 6, 7, 5]

/-- The ball's initial quad, centered on the arena center. -/
def ball_vertices : List Vertex :=
  [ ⟨1/50, 1/50, 0, 1, 1, 1⟩
  , ⟨-1/50, 1/50, 0, 1, 1, 1⟩
  , ⟨-1/50, -1/50, 0, 1, 1, 1⟩
  , ⟨1/50, -1/50, 0, 1, 1, 1⟩ ]

/-- Array `ball_indices = [8, 9, 10, 8, 10, 11]`. -/
def ball_indices : List Nat := [8, 9, 10, 8, 10, 11]

/-- The `Ball` as constructed at `src/main.rs:254`: zero velocity and
acceleration, both directions `Wrap64::ZERO`. -/
def ball_init : Ball :=
  { vertices := ball_vertices
  , velocity := 0
  , acceleration := 0
  , velocity_direction := Wrap64.ZERO
  , acceleration_direction := Wrap64.ZERO }

/-- Vector `combined_indices`, built once before the game loop and never written
again. -/
def combined_indices : List Nat := indices_1 ++ indices_2 ++ ball_indices

/-- The game-init serve (`src/main.rs:429`): on a coin toss toward player 1
set the direction to `HALF_TURN` and the velocity to `0.03`; otherwise only
set the velocity to `0.03` (the direction keeps its initial `ZERO`). -/
def game_init (to_player_1 : Bool) : GameState :=
  let b := if to_player_1 then
      { ball_init with velocity_direction := Wrap64.HALF_TURN, velocity := 3/100 }
    else
      { ball_init with velocity := 3/100 }
  { flags := ⟨false, false, false, false⟩
  , player_1 := vertices_1
  , player_2 := vertices_2
  , ball := b }

/-- Call `glfw.poll_events()`: the pending key events are dispatched through the
key callback in delivery order. -/
def poll_events (events : List (Key × KeyAction)) (s : GameState) : GameState :=
  events.foldl (fun t e => key_callback e.1 e.2 t) s

/-- One iteration of the game loop (`src/main.rs:436`): poll the pending
events, then `sanitize(&player_1); sanitize(&player_2)`.  The rest of the
iteration builds `new_vertices` and renders; it does not change game state. -/
def loop_iter (events : List (Key × KeyAction)) (s : GameState) : GameState :=
  let t := poll_events events s
  { t with player_1 := sanitize t.player_1, player_2 := sanitize t.player_2 }

/-- Iterating the game loop over a list of per-iteration event batches. -/
def run_loop (evss : List (List (Key × KeyAction))) (s : GameState) : GameState :=
  evss.foldl (fun t evs => loop_iter evs t) s

/-- Vector `new_vertices`, the vertex data written to the vertex buffer each
iteration: paddle 1's vertices, then paddle 2's, then the ball's. -/
def new_vertices (s : GameState) : List Vertex :=
  s.player_1 ++ s.player_2 ++ s.ball.vertices

/-! ### Helper layer: rigid vertical translations -/

/-- Rigid vertical translation of a vertex list by `d`: the normal form of
every paddle mutation in the source (`player_up`, `player_down`, and both
`sanitize` corrections are uniform shifts). -/
def shift_player (d : ℚ) (p : List Vertex) : List Vertex :=
  p.map (fun v => { v with p1 := v.p1 + d })

/-- The common quad shape of the two paddles: top edge at `1/5`, bottom edge
at `-1/5`, horizontal extent `xl`/`xr`, white color. -/
def quad (xl xr : ℚ) : List Vertex :=
  [ ⟨xl, 1/5, 0, 1, 1, 1⟩
  , ⟨xl, -1/5, 0, 1, 1, 1⟩
  , ⟨xr, 1/5, 0, 1, 1, 1⟩
  , ⟨xr, -1/5, 0, 1, 1, 1⟩ ]

lemma vertices_1_eq_quad : vertices_1 = quad (-4/5) (-77/100) := rfl

lemma vertices_2_eq_quad : vertices_2 = quad (4/5) (77/100) := rfl

lemma shift_player_zero (p : List Vertex) : shift_player 0 p = p := by
  simp [shift_player]

lemma shift_player_add (d e : ℚ) (p : List Vertex) :
    shift_player e (shift_player d p) = shift_player (d + e) p := by
  simp only [shift_player, List.map_map]
  refine List.map_congr_left ?_
  intro v _
  simp [Function.comp, add_assoc]

/-- Predicate: `p` is a rigid vertical translate of `base`. -/
def IsShift (base p : List Vertex) : Prop :=
  ∃ d, p = shift_player d base

lemma isShift_refl (base : List Vertex) : IsShift base base :=
  ⟨0, (shift_player_zero base).symm⟩

lemma player_up_eq_shift (p : List Vertex) : player_up p = shift_player (1/20) p :=
  rfl

lemma player_down_eq_shift (p : List Vertex) :
    player_down p = shift_player (-(1/20)) p := by
  simp only [player_down, shift_player]
  refine List.map_congr_left ?_
  intro v _
  simp [sub_eq_add_neg]

lemma isShift_player_up {base p : List Vertex} (h : IsShift base p) :
    IsShift base (player_up p) := by
  obtain ⟨d, rfl⟩ := h
  exact ⟨d + 1/20, by rw [player_up_eq_shift, shift_player_add]⟩

lemma isShift_player_down {base p : List Vertex} (h : IsShift base p) :
    IsShift base (player_down p) := by
  obtain ⟨d, rfl⟩ := h
  exact ⟨d + -(1/20), by rw [player_down_eq_shift, shift_player_add]⟩

/-- Whatever `sanitize` does, it is a uniform vertical shift of its input. -/
lemma sanitize_shift_of (p : List Vertex) : ∃ e, sanitize p = shift_player e p := by
  simp only [sanitize]
  split_ifs with h1 h2
  · refine ⟨-((p.getD 0 vdefault).p1 - 1), ?_⟩
    simp only [shift_player]
    refine List.map_congr_left ?_
    intro v _
    simp [sub_eq_add_neg]
  · exact ⟨-1 - (p.getD 3 vdefault).p1, rfl⟩
  · exact ⟨0, (shift_player_zero p).symm⟩

lemma isShift_sanitize {base p : List Vertex} (h : IsShift base p) :
    IsShift base (sanitize p) := by
  obtain ⟨d, rfl⟩ := h
  obtain ⟨e, he⟩ := sanitize_shift_of (shift_player d base)
  exact ⟨d + e, by rw [he, shift_player_add]⟩

/-- The offset a paddle at vertical offset `d` ends at after `sanitize`. -/
def clamp_offset (d : ℚ) : ℚ :=
  if d > 4/5 then 4/5 else if d < -4/5 then -4/5 else d

lemma clamp_offset_mem (d : ℚ) :
    -4/5 ≤ clamp_offset d ∧ clamp_offset d ≤ 4/5 := by
  unfold clamp_offset
  split_ifs <;> constructor <;> linarith

lemma clamp_offset_idem (d : ℚ) : clamp_offset (clamp_offset d) = clamp_offset d := by
  unfold clamp_offset
  split_ifs <;> first | rfl | linarith

lemma clamp_offset_of_mem {d : ℚ} (h1 : -4/5 ≤ d) (h2 : d ≤ 4/5) :
    clamp_offset d = d := by
  unfold clamp_offset
  split_ifs <;> first | rfl | linarith

/-- Applying `sanitize` to a translated paddle quad clamps the offset. -/
lemma sanitize_quad (xl xr d : ℚ) :
    sanitize (shift_player d (quad xl xr)) =
      shift_player (clamp_offset d) (quad xl xr) := by
  show sanitize
      [ ⟨xl, 1/5 + d, 0, 1, 1, 1⟩
      , ⟨xl, -1/5 + d, 0, 1, 1, 1⟩
      , ⟨xr, 1/5 + d, 0, 1, 1, 1⟩
      , ⟨xr, -1/5 + d, 0, 1, 1, 1⟩ ] = _
  simp only [sanitize, clamp_offset, List.getD_cons_zero, List.getD_cons_succ]
  split_ifs with h1 h2 h3 h4 h5 <;>
    simp only [shift_player, quad, List.map, Vertex.mk.injEq, List.cons.injEq,
      and_true, true_and] <;>
    norm_num <;> linarith

/-- Every movement block of the key callback has the shape
`if held-combination then (if bound-guard then move p else p) else p`;
such a block preserves being a translate of the base quad. -/
lemma isShift_step {base : List Vertex} (c g : Prop) [Decidable c] [Decidable g]
    (f : List Vertex → List Vertex)
    (hf : ∀ q, IsShift base q → IsShift base (f q))
    (p : List Vertex) (hp : IsShift base p) :
    IsShift base (if c then (if g then f p else p) else p) := by
  split_ifs with h1 h2
  · exact hf p hp
  · exact hp
  · exact hp

/-- Both paddles are rigid vertical translates of their initial quads. -/
def PaddleInv (s : GameState) : Prop :=
  IsShift vertices_1 s.player_1 ∧ IsShift vertices_2 s.player_2

lemma key_callback_ball (k : Key) (a : KeyAction) (s : GameState) :
    (key_callback k a s).ball = s.ball := rfl

lemma key_callback_paddleInv (k : Key) (a : KeyAction) (s : GameState)
    (h : PaddleInv s) : PaddleInv (key_callback k a s) := by
  obtain ⟨h1, h2⟩ := h
  constructor
  · simp only [key_callback]
    apply isShift_step _ _ player_down (fun q hq => isShift_player_down hq)
    apply isShift_step _ _ player_up (fun q hq => isShift_player_up hq)
    apply isShift_step _ _ player_down (fun q hq => isShift_player_down hq)
    apply isShift_step _ _ player_up (fun q hq => isShift_player_up hq)
    apply isShift_step _ _ player_down (fun q hq => isShift_player_down hq)
    apply isShift_step _ _ player_up (fun q hq => isShift_player_up hq)
    exact h1
  · simp only [key_callback]
    apply isShift_step _ _ player_down (fun q hq => isShift_player_down hq)
    apply isShift_step _ _ player_up (fun q hq => isShift_player_up hq)
    apply isShift_step _ _ player_down (fun q hq => isShift_player_down hq)
    apply isShift_step _ _ player_down (fun q hq => isShift_player_down hq)
    apply isShift_step _ _ player_up (fun q hq => isShift_player_up hq)
    apply isShift_step _ _ player_up (fun q hq => isShift_player_up hq)
    exact h2

lemma poll_events_ball (events : List (Key × KeyAction)) (s : GameState) :
    (poll_events events s).ball = s.ball := by
  induction events generalizing s with
  | nil => rfl
  | cons e es ih => exact (ih (key_callback e.1 e.2 s)).trans rfl

lemma poll_events_paddleInv (events : List (Key × KeyAction)) (s : GameState)
    (h : PaddleInv s) : PaddleInv (poll_events events s) := by
  induction events generalizing s with
  | nil => exact h
  | cons e es ih => exact ih _ (key_callback_paddleInv e.1 e.2 s h)

lemma loop_iter_ball (events : List (Key × KeyAction)) (s : GameState) :
    (loop_iter events s).ball = s.ball := by
  simp only [loop_iter]
  exact poll_events_ball events s

lemma loop_iter_paddleInv (events : List (Key × KeyAction)) (s : GameState)
    (h : PaddleInv s) : PaddleInv (loop_iter events s) := by
  obtain ⟨h1, h2⟩ := poll_events_paddleInv events s h
  exact ⟨isShift_sanitize h1, isShift_sanitize h2⟩

lemma run_loop_ball (evss : List (List (Key × KeyAction))) (s : GameState) :
    (run_loop evss s).ball = s.ball := by
  induction evss generalizing s with
  | nil => rfl
  | cons evs rest ih => exact (ih (loop_iter evs s)).trans (loop_iter_ball evs s)

lemma run_loop_paddleInv (evss : List (List (Key × KeyAction))) (s : GameState)
    (h : PaddleInv s) : PaddleInv (run_loop evss s) := by
  induction evss generalizing s with
  | nil => exact h
  | cons evs rest ih => exact ih _ (loop_iter_paddleInv evs s h)

lemma game_init_paddleInv (to_player_1 : Bool) : PaddleInv (game_init to_player_1) :=
  ⟨isShift_refl vertices_1, isShift_refl vertices_2⟩

lemma game_init_ball_vertices (to_player_1 : Bool) :
    (game_init to_player_1).ball.vertices = ball_vertices := by
  simp only [game_init, ball_init]
  split_ifs <;> rfl

/-! ### Claim theorems -/

/-- C1: if a paddle quad's top vertex exceeds the top bound `1` by a positive
amount, one `sanitize` call shifts every vertex down by exactly that
overshoot, so the resulting top is exactly `1` and the top-to-bottom height
is unchanged; symmetrically, a bottom overshoot past `-1` (with the top in
bounds) shifts every vertex up by exactly the overshoot; and when neither
bound is violated nothing moves — so at most one correction is applied per
invocation. -/
theorem sanitize_clamp_correct (a b c d : Vertex) :
    (1 < a.p1 →
      sanitize [a, b, c, d] =
        [ { a with p1 := a.p1 - (a.p1 - 1) }
        , { b with p1 := b.p1 - (a.p1 - 1) }
        , { c with p1 := c.p1 - (a.p1 - 1) }
        , { d with p1 := d.p1 - (a.p1 - 1) } ] ∧
      ((sanitize [a, b, c, d]).getD 0 vdefault).p1 = 1 ∧
      ((sanitize [a, b, c, d]).getD 0 vdefault).p1 -
          ((sanitize [a, b, c, d]).getD 3 vdefault).p1 = a.p1 - d.p1) ∧
    (a.p1 ≤ 1 → d.p1 < -1 →
      sanitize [a, b, c, d] =
        [ { a with p1 := a.p1 + (-1 - d.p1) }
        , { b with p1 := b.p1 + (-1 - d.p1) }
        , { c with p1 := c.p1 + (-1 - d.p1) }
        , { d with p1 := d.p1 + (-1 - d.p1) } ] ∧
      ((sanitize [a, b, c, d]).getD 3 vdefault).p1 = -1 ∧
      ((sanitize [a, b, c, d]).getD 0 vdefault).p1 -
          ((sanitize [a, b, c, d]).getD 3 vdefault).p1 = a.p1 - d.p1) ∧
    (a.p1 ≤ 1 → -1 ≤ d.p1 → sanitize [a, b, c, d] = [a, b, c, d]) := by
  refine ⟨fun htop => ?_, fun htop hbot => ?_, fun htop hbot => ?_⟩
  · have hc : a.p1 - 1 > 0 := by linarith
    have hs : sanitize [a, b, c, d] =
        [ { a with p1 := a.p1 - (a.p1 - 1) }
        , { b with p1 := b.p1 - (a.p1 - 1) }
        , { c with p1 := c.p1 - (a.p1 - 1) }
        , { d with p1 := d.p1 - (a.p1 - 1) } ] := by
      simp only [sanitize, List.getD_cons_zero]
      rw [if_pos hc]
      rfl
    refine ⟨hs, ?_, ?_⟩ <;> rw [hs] <;> simp <;> ring
  · have hc : ¬ a.p1 - 1 > 0 := by linarith
    have hcb : -1 - d.p1 > 0 := by linarith
    have hs : sanitize [a, b, c, d] =
        [ { a with p1 := a.p1 + (-1 - d.p1) }
        , { b with p1 := b.p1 + (-1 - d.p1) }
        , { c with p1 := c.p1 + (-1 - d.p1) }
        , { d with p1 := d.p1 + (-1 - d.p1) } ] := by
      simp only [sanitize, List.getD_cons_zero, List.getD_cons_succ]
      rw [if_neg hc, if_pos hcb]
      rfl
    refine ⟨hs, ?_, ?_⟩ <;> rw [hs] <;> simp <;> ring
  · have hc : ¬ a.p1 - 1 > 0 := by linarith
    have hcb : ¬ -1 - d.p1 > 0 := by linarith
    simp only [sanitize, List.getD_cons_zero, List.getD_cons_succ]
    rw [if_neg hc, if_neg hcb]

/-- Witness for C1: a quad overshooting the top bound by `1/2` is shifted
down by exactly `1/2`. -/
theorem sanitize_clamp_correct_witness :
    sanitize
        [ ⟨0, 3/2, 0, 1, 1, 1⟩, ⟨0, 11/10, 0, 1, 1, 1⟩
        , ⟨1, 3/2, 0, 1, 1, 1⟩, ⟨1, 11/10, 0, 1, 1, 1⟩ ] =
      [ ⟨0, 1, 0, 1, 1, 1⟩, ⟨0, 3/5, 0, 1, 1, 1⟩
      , ⟨1, 1, 0, 1, 1, 1⟩, ⟨1, 3/5, 0, 1, 1, 1⟩ ] := by
  have h := (sanitize_clamp_correct ⟨0, 3/2, 0, 1, 1, 1⟩ ⟨0, 11/10, 0, 1, 1, 1⟩
    ⟨1, 3/2, 0, 1, 1, 1⟩ ⟨1, 11/10, 0, 1, 1, 1⟩).1 (by norm_num)
  rw [h.1]
  norm_num

/-- C2: clamping is idempotent on paddle positions: for every vertical
offset of either paddle's quad, applying `sanitize` twice gives the same
vertex list as applying it once. -/
theorem sanitize_idem_paddle_positions (d : ℚ) :
    sanitize (sanitize (shift_player d vertices_1)) =
        sanitize (shift_player d vertices_1) ∧
    sanitize (sanitize (shift_player d vertices_2)) =
        sanitize (shift_player d vertices_2) := by
  constructor
  · rw [vertices_1_eq_quad, sanitize_quad, sanitize_quad, clamp_offset_idem]
  · rw [vertices_2_eq_quad, sanitize_quad, sanitize_quad, clamp_offset_idem]

/-- C3: the initial serve is deterministic in the coin toss: toward player 1
it yields direction `HALF_TURN` and speed `0.03`; toward player 2 it yields
direction `ZERO` and the same speed; the speed is nonzero in both cases. -/
theorem serve_deterministic :
    (game_init true).ball.velocity_direction = Wrap64.HALF_TURN ∧
    (game_init true).ball.velocity = 3/100 ∧
    (game_init false).ball.velocity_direction = Wrap64.ZERO ∧
    (game_init false).ball.velocity = 3/100 ∧
    (game_init true).ball.velocity ≠ 0 ∧
    (game_init false).ball.velocity ≠ 0 := by
  refine ⟨rfl, rfl, rfl, rfl, ?_, ?_⟩ <;>
    · show (3/100 : ℚ) ≠ 0
      norm_num

/-- A game state whose ball sits just inside the right boundary (quad
centered at `x = 97/100`, so its right edge is at `99/100`) moving rightward
(direction `ZERO`) at speed `3/100`, which would carry it past the right
edge in one step. -/
def state_scored_right_test : GameState :=
  { flags := ⟨false, false, false, false⟩
  , player_1 := vertices_1
  , player_2 := vertices_2
  , ball :=
    { vertices :=
      [ ⟨99/100, 1/50, 0, 1, 1, 1⟩
      , ⟨95/100, 1/50, 0, 1, 1, 1⟩
      , ⟨95/100, -1/50, 0, 1, 1, 1⟩
      , ⟨99/100, -1/50, 0, 1, 1, 1⟩ ]
    , velocity_direction := Wrap64.ZERO
    , velocity := 3/100
    , acceleration := 0
    , acceleration_direction := Wrap64.ZERO } }

/-- C4 (failing-input evaluation): the game loop contains no ball
integration, scoring, or re-serve, so from the claimed scenario one loop
iteration leaves the ball's fields exactly as they were: the direction is
still `ZERO` (not `HALF_TURN`) and the quad is still at the right edge, not
at the arena center. -/
theorem scoring_roundtrip_missing :
    (loop_iter [] state_scored_right_test).ball = state_scored_right_test.ball ∧
    (loop_iter [] state_scored_right_test).ball.velocity_direction ≠
        Wrap64.HALF_TURN ∧
    (loop_iter [] state_scored_right_test).ball.vertices ≠ ball_vertices := by
  refine ⟨loop_iter_ball [] _, ?_, ?_⟩
  · rw [loop_iter_ball]
    show Wrap64.ZERO ≠ Wrap64.HALF_TURN
    norm_num [Wrap64.ZERO, Wrap64.HALF_TURN]
  · rw [loop_iter_ball]
    show _ ≠ ball_vertices
    simp only [state_scored_right_test, ball_vertices, List.cons.injEq,
      Vertex.mk.injEq, not_and]
    intro h
    norm_num at h

/-- A game state whose ball sits just inside the bottom boundary (quad
centered at `y = -97/100`, bottom edge at `-99/100`) moving straight down
(direction `3/4` of a turn, vertical component negative) at speed `3/100`,
which would carry it past the bottom bound in one step. -/
def state_bottom_wall_test : GameState :=
  { flags := ⟨false, false, false, false⟩
  , player_1 := vertices_1
  , player_2 := vertices_2
  , ball :=
    { vertices :=
      [ ⟨1/50, -19/20, 0, 1, 1, 1⟩
      , ⟨-1/50, -19/20, 0, 1, 1, 1⟩
      , ⟨-1/50, -99/100, 0, 1, 1, 1⟩
      , ⟨1/50, -99/100, 0, 1, 1, 1⟩ ]
    , velocity_direction := 3/4
    , velocity := 3/100
    , acceleration := 0
    , acceleration_direction := Wrap64.ZERO } }

/-- C5 (failing-input evaluation): the game loop contains no wall-collision
response, so from the claimed scenario one loop iteration leaves the ball's
fields untouched: the direction's vertical component is not sign-flipped
(still `3/4` of a turn, not `1/4`) and no vertex is re-placed at the
boundary. -/
theorem wall_reflection_missing :
    (loop_iter [] state_bottom_wall_test).ball = state_bottom_wall_test.ball ∧
    (loop_iter [] state_bottom_wall_test).ball.velocity_direction = 3/4 ∧
    (loop_iter [] state_bottom_wall_test).ball.velocity_direction ≠ 1/4 ∧
    (loop_iter [] state_bottom_wall_test).ball.vertices =
        state_bottom_wall_test.ball.vertices := by
  refine ⟨loop_iter_ball [] _, ?_, ?_, ?_⟩
  · rw [loop_iter_ball]
    rfl
  · rw [loop_iter_ball]
    show (3/4 : ℚ) ≠ 1/4
    norm_num
  · rw [loop_iter_ball]

/-- The key callback on a `W` press from a state where no key is held: only
the `is_w_down` block fires, so paddle 1 moves up one step (bounds
permitting) and paddle 2 is untouched. -/
lemma key_callback_w_only (s : GameState)
    (hf : s.flags = ⟨false, false, false, false⟩)
    (hup : can_move_up s.player_1) :
    key_callback Key.w KeyAction.press s =
      { flags := ⟨true, false, false, false⟩
      , player_1 := player_up s.player_1
      , player_2 := s.player_2
      , ball := s.ball } := by
  obtain ⟨f, p1, p2, b⟩ := s
  simp only at hf hup
  subst hf
  simp [key_callback, KeyAction.held, hup]

lemma can_move_up_shift_quad (xl xr d : ℚ) :
    can_move_up (shift_player d (quad xl xr)) ↔ d < 3/4 := by
  show (1/5 : ℚ) + d + 1/20 < 1 ↔ d < 3/4
  constructor <;> intro <;> linarith

lemma can_move_down_shift_quad (xl xr d : ℚ) :
    can_move_down (shift_player d (quad xl xr)) ↔ -3/4 < d := by
  show (-1/5 : ℚ) + d - 1/20 > -1 ↔ -3/4 < d
  constructor <;> intro <;> linarith

/-- C6: from a state where no key is held and both paddles are in-bounds
translates of their initial quads, one loop iteration whose polled events
are a single `W` press (so only the paddle-1-up key is held) moves every
vertex of paddle 1 up by exactly `1/20` (= `0.05`) — bounds permitting —
and leaves every vertex of paddle 2 unchanged. -/
theorem w_press_moves_only_player_1 (d1 d2 : ℚ) (b : Ball)
    (hup : can_move_up (shift_player d1 vertices_1))
    (hd1 : -4/5 ≤ d1) (hd2l : -4/5 ≤ d2) (hd2r : d2 ≤ 4/5) :
    loop_iter [(Key.w, KeyAction.press)]
        { flags := ⟨false, false, false, false⟩
        , player_1 := shift_player d1 vertices_1
        , player_2 := shift_player d2 vertices_2
        , ball := b } =
      { flags := ⟨true, false, false, false⟩
      , player_1 := player_up (shift_player d1 vertices_1)
      , player_2 := shift_player d2 vertices_2
      , ball := b } := by
  have hd1u : d1 < 3/4 := by
    rw [vertices_1_eq_quad] at hup
    exact (can_move_up_shift_quad _ _ d1).mp hup
  have hkc := key_callback_w_only
    { flags := ⟨false, false, false, false⟩
    , player_1 := shift_player d1 vertices_1
    , player_2 := shift_player d2 vertices_2
    , ball := b } rfl hup
  simp only [loop_iter, poll_events, List.foldl, hkc]
  have h1 : sanitize (player_up (shift_player d1 vertices_1)) =
      player_up (shift_player d1 vertices_1) := by
    rw [vertices_1_eq_quad, player_up_eq_shift, shift_player_add, sanitize_quad,
      clamp_offset_of_mem (by linarith) (by linarith)]
  have h2 : sanitize (shift_player d2 vertices_2) = shift_player d2 vertices_2 := by
    rw [vertices_2_eq_quad, sanitize_quad, clamp_offset_of_mem hd2l hd2r]
  rw [h1, h2]

/-- Witness for C6 at the initial position of both paddles. -/
theorem w_press_moves_only_player_1_witness :
    loop_iter [(Key.w, KeyAction.press)]
        { flags := ⟨false, false, false, false⟩
        , player_1 := shift_player 0 vertices_1
        , player_2 := shift_player 0 vertices_2
        , ball := ball_init } =
      { flags := ⟨true, false, false, false⟩
      , player_1 := player_up (shift_player 0 vertices_1)
      , player_2 := shift_player 0 vertices_2
      , ball := ball_init } := by
  refine w_press_moves_only_player_1 0 0 ball_init ?_ (by norm_num) (by norm_num)
    (by norm_num)
  rw [shift_player_zero]
  norm_num [can_move_up, vertices_1, vdefault]

/-- C7: no loop iteration modifies any field of the ball — from any state,
and in particular over any whole run from the post-coin-toss initial state,
the ball's quad stays exactly the initial center quad. -/
theorem ball_never_modified :
    (∀ (events : List (Key × KeyAction)) (s : GameState),
        (loop_iter events s).ball = s.ball) ∧
    (∀ (to_player_1 : Bool) (evss : List (List (Key × KeyAction))),
        (run_loop evss (game_init to_player_1)).ball =
            (game_init to_player_1).ball ∧
        (run_loop evss (game_init to_player_1)).ball.vertices = ball_vertices) := by
  refine ⟨loop_iter_ball, fun t evss => ⟨run_loop_ball _ _, ?_⟩⟩
  rw [run_loop_ball]
  exact game_init_ball_vertices t

lemma mem_shift_quad {v : Vertex} {xl xr e : ℚ}
    (hv : v ∈ shift_player e (quad xl xr)) :
    v = ⟨xl, 1/5 + e, 0, 1, 1, 1⟩ ∨ v = ⟨xl, -1/5 + e, 0, 1, 1, 1⟩ ∨
      v = ⟨xr, 1/5 + e, 0, 1, 1, 1⟩ ∨ v = ⟨xr, -1/5 + e, 0, 1, 1, 1⟩ := by
  have hq : shift_player e (quad xl xr) =
      [ ⟨xl, 1/5 + e, 0, 1, 1, 1⟩, ⟨xl, -1/5 + e, 0, 1, 1, 1⟩
      , ⟨xr, 1/5 + e, 0, 1, 1, 1⟩, ⟨xr, -1/5 + e, 0, 1, 1, 1⟩ ] := rfl
  rw [hq] at hv
  simpa using hv

lemma mem_quad_shift_bounds {v : Vertex} {xl xr e : ℚ}
    (hxl1 : -1 ≤ xl) (hxl2 : xl ≤ 1) (hxr1 : -1 ≤ xr) (hxr2 : xr ≤ 1)
    (he1 : -4/5 ≤ e) (he2 : e ≤ 4/5)
    (hv : v ∈ shift_player e (quad xl xr)) :
    -1 ≤ v.p0 ∧ v.p0 ≤ 1 ∧ -1 ≤ v.p1 ∧ v.p1 ≤ 1 := by
  rcases mem_shift_quad hv with rfl | rfl | rfl | rfl <;>
    exact ⟨by linarith, by linarith, by linarith, by linarith⟩

lemma mem_ball_vertices_bounds {v : Vertex} (hv : v ∈ ball_vertices) :
    -1 ≤ v.p0 ∧ v.p0 ≤ 1 ∧ -1 ≤ v.p1 ∧ v.p1 ≤ 1 := by
  have hv' : v = (⟨1/50, 1/50, 0, 1, 1, 1⟩ : Vertex) ∨
      v = ⟨-1/50, 1/50, 0, 1, 1, 1⟩ ∨ v = ⟨-1/50, -1/50, 0, 1, 1, 1⟩ ∨
      v = ⟨1/50, -1/50, 0, 1, 1, 1⟩ := by simpa [ball_vertices] using hv
  rcases hv' with rfl | rfl | rfl | rfl <;>
    refine ⟨by norm_num, by norm_num, by norm_num, by norm_num⟩

/-- C8: after each simulation step — i.e. in the frame read out at the end
of any loop iteration, starting from the initial state and any sequence of
polled key events — every vertex of both paddles and of the ball lies within
the arena bounds `[-1, 1]` on both the horizontal and vertical axis. -/
theorem frame_vertices_in_bounds (to_player_1 : Bool)
    (evss : List (List (Key × KeyAction))) (evs : List (Key × KeyAction))
    (v : Vertex)
    (hv : v ∈ new_vertices (loop_iter evs (run_loop evss (game_init to_player_1)))) :
    -1 ≤ v.p0 ∧ v.p0 ≤ 1 ∧ -1 ≤ v.p1 ∧ v.p1 ≤ 1 := by
  have hinv : PaddleInv (poll_events evs (run_loop evss (game_init to_player_1))) :=
    poll_events_paddleInv _ _
      (run_loop_paddleInv _ _ (game_init_paddleInv to_player_1))
  obtain ⟨⟨d1, hp1⟩, ⟨d2, hp2⟩⟩ := hinv
  have hnv : new_vertices (loop_iter evs (run_loop evss (game_init to_player_1))) =
      sanitize (poll_events evs (run_loop evss (game_init to_player_1))).player_1 ++
        sanitize (poll_events evs (run_loop evss (game_init to_player_1))).player_2 ++
        (poll_events evs (run_loop evss (game_init to_player_1))).ball.vertices := rfl
  rw [hnv, hp1, hp2, vertices_1_eq_quad, vertices_2_eq_quad, sanitize_quad,
    sanitize_quad, poll_events_ball, run_loop_ball, game_init_ball_vertices] at hv
  rcases List.mem_append.mp hv with hv' | hv'
  · rcases List.mem_append.mp hv' with hv2 | hv2
    · exact mem_quad_shift_bounds (by norm_num) (by norm_num) (by norm_num)
        (by norm_num) (clamp_offset_mem d1).1 (clamp_offset_mem d1).2 hv2
    · exact mem_quad_shift_bounds (by norm_num) (by norm_num) (by norm_num)
        (by norm_num) (clamp_offset_mem d2).1 (clamp_offset_mem d2).2 hv2
  · exact mem_ball_vertices_bounds hv'

/-- Witness for C8: the first frame of an event-free run serving toward
player 1 contains paddle 1's first vertex, and it is in bounds. -/
theorem frame_vertices_in_bounds_witness :
    (⟨-4/5, 1/5, 0, 1, 1, 1⟩ : Vertex) ∈
        new_vertices (loop_iter [] (run_loop [] (game_init true))) ∧
    (-1 ≤ (-4/5 : ℚ) ∧ (-4/5 : ℚ) ≤ 1 ∧ -1 ≤ (1/5 : ℚ) ∧ (1/5 : ℚ) ≤ 1) := by
  have hmem : (⟨-4/5, 1/5, 0, 1, 1, 1⟩ : Vertex) ∈
      new_vertices (loop_iter [] (run_loop [] (game_init true))) := by
    have : new_vertices (loop_iter [] (run_loop [] (game_init true))) =
        sanitize vertices_1 ++ sanitize vertices_2 ++ ball_vertices := rfl
    rw [this]
    have h1 : sanitize vertices_1 = vertices_1 := by
      norm_num [sanitize, vertices_1, vdefault]
    rw [h1]
    simp [vertices_1]
  exact ⟨hmem, frame_vertices_in_bounds true [] []
    ⟨-4/5, 1/5, 0, 1, 1, 1⟩ hmem⟩

lemma colors_shift_quad {v : Vertex} {xl xr e : ℚ}
    (hv : v ∈ shift_player e (quad xl xr)) :
    v.c0 = 1 ∧ v.c1 = 1 ∧ v.c2 = 1 := by
  rcases mem_shift_quad hv with rfl | rfl | rfl | rfl <;> exact ⟨rfl, rfl, rfl⟩

lemma colors_ball_vertices {v : Vertex} (hv : v ∈ ball_vertices) :
    v.c0 = 1 ∧ v.c1 = 1 ∧ v.c2 = 1 := by
  have hv' : v = (⟨1/50, 1/50, 0, 1, 1, 1⟩ : Vertex) ∨
      v = ⟨-1/50, 1/50, 0, 1, 1, 1⟩ ∨ v = ⟨-1/50, -1/50, 0, 1, 1, 1⟩ ∨
      v = ⟨1/50, -1/50, 0, 1, 1, 1⟩ := by simpa [ball_vertices] using hv
  rcases hv' with rfl | rfl | rfl | rfl <;> exact ⟨rfl, rfl, rfl⟩

/-- C9: in the frame read out at the end of any loop iteration, the vertex
data is paddle 1's 4 vertices, then paddle 2's 4 vertices, then the ball's
4 vertices — each paddle part a vertical translate of its initial quad and
the ball part the fixed center quad, so only positions ever change; every
vertex carries the constant white color; and the index list is the one
`combined_indices` built once before the loop. -/
theorem frame_output_fixed_order (to_player_1 : Bool)
    (evss : List (List (Key × KeyAction))) (evs : List (Key × KeyAction)) :
    (∃ d1 d2,
      new_vertices (loop_iter evs (run_loop evss (game_init to_player_1))) =
        shift_player d1 vertices_1 ++ shift_player d2 vertices_2 ++
          ball_vertices ∧
      (shift_player d1 vertices_1).length = 4 ∧
      (shift_player d2 vertices_2).length = 4 ∧
      ball_vertices.length = 4) ∧
    (∀ v ∈ new_vertices (loop_iter evs (run_loop evss (game_init to_player_1))),
      v.c0 = 1 ∧ v.c1 = 1 ∧ v.c2 = 1) ∧
    combined_indices = [0, 1, 2, 2, 1, 3, 4, 6, 5, 6, 7, 5, 8, 9, 10, 8, 10, 11] := by
  have hinv : PaddleInv (poll_events evs (run_loop evss (game_init to_player_1))) :=
    poll_events_paddleInv _ _
      (run_loop_paddleInv _ _ (game_init_paddleInv to_player_1))
  obtain ⟨⟨d1, hp1⟩, ⟨d2, hp2⟩⟩ := hinv
  have hnv : new_vertices (loop_iter evs (run_loop evss (game_init to_player_1))) =
      sanitize (poll_events evs (run_loop evss (game_init to_player_1))).player_1 ++
        sanitize (poll_events evs (run_loop evss (game_init to_player_1))).player_2 ++
        (poll_events evs (run_loop evss (game_init to_player_1))).ball.vertices := rfl
  have hball : (poll_events evs (run_loop evss (game_init to_player_1))).ball.vertices =
      ball_vertices := by
    rw [poll_events_ball, run_loop_ball, game_init_ball_vertices]
  have hq1 : sanitize (poll_events evs (run_loop evss (game_init to_player_1))).player_1 =
      shift_player (clamp_offset d1) vertices_1 := by
    rw [hp1, vertices_1_eq_quad, sanitize_quad]
  have hq2 : sanitize (poll_events evs (run_loop evss (game_init to_player_1))).player_2 =
      shift_player (clamp_offset d2) vertices_2 := by
    rw [hp2, vertices_2_eq_quad, sanitize_quad]
  refine ⟨⟨clamp_offset d1, clamp_offset d2, ?_, rfl, rfl, rfl⟩, ?_, rfl⟩
  · rw [hnv, hq1, hq2, hball]
  · intro v hv
    rw [hnv, hq1, hq2, hball, vertices_1_eq_quad, vertices_2_eq_quad] at hv
    rcases List.mem_append.mp hv with hv' | hv'
    · rcases List.mem_append.mp hv' with hv2 | hv2
      · exact colors_shift_quad hv2
      · exact colors_shift_quad hv2
    · exact colors_ball_vertices hv'

/-- Witness for C9: instantiating the color clause of the frame-output
theorem on the first vertex of the first frame. -/
theorem frame_output_fixed_order_witness :
    (⟨-4/5, 1/5, 0, 1, 1, 1⟩ : Vertex) ∈
        new_vertices (loop_iter [] (run_loop [] (game_init true))) ∧
    ((⟨-4/5, 1/5, 0, 1, 1, 1⟩ : Vertex).c0 = 1 ∧
      (⟨-4/5, 1/5, 0, 1, 1, 1⟩ : Vertex).c1 = 1 ∧
      (⟨-4/5, 1/5, 0, 1, 1, 1⟩ : Vertex).c2 = 1) := by
  have hmem : (⟨-4/5, 1/5, 0, 1, 1, 1⟩ : Vertex) ∈
      new_vertices (loop_iter [] (run_loop [] (game_init true))) := by
    have : new_vertices (loop_iter [] (run_loop [] (game_init true))) =
        sanitize vertices_1 ++ sanitize vertices_2 ++ ball_vertices := rfl
    rw [this]
    have h1 : sanitize vertices_1 = vertices_1 := by
      norm_num [sanitize, vertices_1, vdefault]
    rw [h1]
    simp [vertices_1]
  exact ⟨hmem, (frame_output_fixed_order true [] []).2.1
    ⟨-4/5, 1/5, 0, 1, 1, 1⟩ hmem⟩

/-- C10: processing a single `Up` press while `W` is already recorded as
held moves paddle 1 up twice (the `W && Up` block and then the `W` block)
and paddle 2 up twice (the `W && Up` block and then the `Up` block), bounds
permitting — where paddle 2's first move is guarded by paddle 1's
`can_move_up` check, not paddle 2's own.  The second conjunct exhibits that
mis-guard: with paddle 1 high enough that its post-move `can_move_up`
fails, paddle 2's first move is skipped even though paddle 2's own bound
check holds, so paddle 2 ends up moved only once. -/
theorem w_up_double_move (p1 p2 : List Vertex) (b : Ball)
    (h1 : can_move_up p1) (h2 : can_move_up (player_up p1))
    (h3 : can_move_up (player_up p2)) :
    key_callback Key.up KeyAction.press
        { flags := ⟨true, false, false, false⟩
        , player_1 := p1, player_2 := p2, ball := b } =
      { flags := ⟨true, false, true, false⟩
      , player_1 := player_up (player_up p1)
      , player_2 := player_up (player_up p2)
      , ball := b } ∧
    (key_callback Key.up KeyAction.press
        { flags := ⟨true, false, false, false⟩
        , player_1 := shift_player (72/100) vertices_1
        , player_2 := vertices_2, ball := ball_init } =
      { flags := ⟨true, false, true, false⟩
      , player_1 := player_up (shift_player (72/100) vertices_1)
      , player_2 := player_up vertices_2
      , ball := ball_init } ∧
      can_move_up vertices_2 ∧
      ¬ can_move_up (player_up (shift_player (72/100) vertices_1))) := by
  constructor
  · simp [key_callback, KeyAction.held, h1, h2, h3]
  · have ha : can_move_up (shift_player (72/100) vertices_1) := by
      norm_num [can_move_up, shift_player, vertices_1, vdefault]
    have hb : ¬ can_move_up (player_up (shift_player (72/100) vertices_1)) := by
      norm_num [can_move_up, player_up, shift_player, vertices_1, vdefault]
    have hc : can_move_up vertices_2 := by
      norm_num [can_move_up, vertices_2, vdefault]
    refine ⟨?_, hc, hb⟩
    simp [key_callback, KeyAction.held, ha, hb, hc]

/-- Witness for C10 at the initial paddle positions. -/
theorem w_up_double_move_witness :
    key_callback Key.up KeyAction.press
        { flags := ⟨true, false, false, false⟩
        , player_1 := vertices_1, player_2 := vertices_2, ball := ball_init } =
      { flags := ⟨true, false, true, false⟩
      , player_1 := player_up (player_up vertices_1)
      , player_2 := player_up (player_up vertices_2)
      , ball := ball_init } := by
  refine (w_up_double_move vertices_1 vertices_2 ball_init ?_ ?_ ?_).1
  · norm_num [can_move_up, vertices_1, vdefault]
  · norm_num [can_move_up, player_up, vertices_1, vdefault]
  · norm_num [can_move_up, player_up, vertices_2, vdefault]

